import Mathlib

/-!
Verification of the question-answering model code
(`questionanswering/models/char_based.py`, `questionanswering/train_model.py`)
as a shallow embedding in Lean.

Python strings are modelled as `List Char`, numpy integer arrays as `List Nat`
(2-d arrays as `List (List Nat)`), real-valued network outputs as `ℝ`
(exact arithmetic in place of floating point), Python dicts as association
lists that keep insertion order (as CPython dicts do), and JSON values by a
small inductive type.  The helper module `input_to_indices` and the class
`keras_extensions.keras_cosine` are referenced by the code but their sources
are not part of this development's source tree, so they are modelled from the
specification where marked.
-/

namespace QA

/-- The model's hyper-parameter dictionary `self._p`.  Optional fields model
keys read with `self._p.get(key, default)`; `graphChoices` and `vocabSize`
model keys accessed directly (`self._p['graph.choices']`,
`self._p['vocab.size']`). -/
structure Params where
  maxSentLen? : Option Nat := none
  loss? : Option String := none
  twinSimilarity? : Option String := none
  graphChoices : Nat := 30
  vocabSize : Nat := 0

/-- Model of keras `sequence.pad_sequences` applied to one integer sequence
with `padding='post', truncating='post'`: keep the first `maxlen` elements,
then append zeros up to length `maxlen`. -/
def pad_post (maxlen : Nat) (xs : List Nat) : List Nat :=
  xs.take maxlen ++ List.replicate (maxlen - xs.length) 0

/-- Model of keras `sequence.pad_sequences` applied to a sequence whose
elements are vectors of width `width` (the trigram model's per-token
multi-hot rows): the sequence axis is truncated to `maxlen` rows and padded
at the end with all-zero rows. -/
def pad_post_rows (maxlen width : Nat) (xs : List (List Nat)) : List (List Nat) :=
  xs.take maxlen ++ List.replicate (maxlen - xs.length) (List.replicate width 0)

/-- First-occurrence deduplication with an accumulator of already seen
elements: the order of a CPython dict built by inserting keys in encounter
order. -/
def dedupFirstAux {α : Type} [DecidableEq α] (seen : List α) : List α → List α
  | [] => []
  | a :: rest =>
      if a ∈ seen then dedupFirstAux seen rest
      else a :: dedupFirstAux (a :: seen) rest

/-- Distinct elements of a list in order of first appearance. -/
def dedupFirst {α : Type} [DecidableEq α] (l : List α) : List α :=
  dedupFirstAux [] l

/-- Pair each element of a list with consecutive indices starting at `i`. -/
def assignIndices : Nat → List Char → List (Char × Nat)
  | _, [] => []
  | i, c :: rest => (c, i) :: assignIndices (i + 1) rest

/-- Modelled from the spec (`input_to_indices.get_character_index` is not in
the source tree): "Vocabulary: mapping from character … to an integer index;
built once from training data", with "unknown symbols map to a default
index".  The distinct characters of the training strings receive the indices
1, 2, … in order of first appearance; the index 0 is reserved as the default
for unknown symbols (and as the padding value). -/
def get_character_index (docs : List (List Char)) : List (Char × Nat) :=
  assignIndices 1 (dedupFirst docs.flatten)

/-- Look a character up in the vocabulary, defaulting to index 0 for symbols
that are not in it. -/
def vocabLookup (vocab : List (Char × Nat)) (c : Char) : Nat :=
  match vocab.find? (fun p => p.1 == c) with
  | some p => p.2
  | none => 0

/-- `" ".join(tokens)`: the characters of the tokens joined by single
spaces. -/
def joinTokens (tokens : List (List Char)) : List Char :=
  (tokens.intersperse [' ']).flatten

/-- A data instance: the question as a sequence of tokens, and the candidate
edges, each given by the token sequence of its label (the text obtained via
`wdaccess.property2label`, with the entity text appended when
`edge.with.entity` is set; the claims under study do not depend on which
label text an edge carries, only on how it is encoded). -/
structure Instance where
  questionTokens : List (List Char)
  edgeLabels : List (List (List Char))

/-- Modelled from the spec (`input_to_indices.encode_by_character` is not in
the source tree): "Map raw token sequences to fixed-length integer arrays
using the vocabulary; unknown symbols map to a default index."  The question
tokens are joined by spaces and each character is mapped to its vocabulary
index; each candidate edge label is encoded the same way. -/
def encode_by_character (inst : Instance) (vocab : List (Char × Nat)) :
    List Nat × List (List Nat) :=
  ((joinTokens inst.questionTokens).map (vocabLookup vocab),
   inst.edgeLabels.map (fun e => (joinTokens e).map (vocabLookup vocab)))

/-- `self._p.get('max.sent.len', 70)` in `CharCNNModel`. -/
def CharCNNModel.max_sent_len (p : Params) : Nat :=
  p.maxSentLen?.getD 70

/-- `CharCNNModel.encode_data_instance`: encode the instance by characters,
then pad/truncate the question sequence and every edge sequence to
`max.sent.len` with `padding='post', truncating='post'`. -/
def CharCNNModel.encode_data_instance (p : Params) (vocab : List (Char × Nat))
    (inst : Instance) : List Nat × List (List Nat) :=
  let r := encode_by_character inst vocab
  (pad_post (CharCNNModel.max_sent_len p) r.1,
   r.2.map (pad_post (CharCNNModel.max_sent_len p)))

/-- A character trigram (Python: a tuple of three one-character strings). -/
abbrev Trigram : Type := Char × Char × Char

/-- Modelled from the spec (`input_to_indices.string_to_trigrams` is not in
the source tree): "Trigram hashing: representing a token as the set/sequence
of its three-character substrings" — the consecutive three-character
substrings of a token, in order. -/
def string_to_trigrams : List Char → List Trigram
  | a :: b :: c :: rest => (a, b, c) :: string_to_trigrams (b :: c :: rest)
  | _ => []

/-- Multi-hot representation of one token over the trigram vocabulary: one
entry per vocabulary trigram, 1 when the token contains it.  This matches
the `YihModel` network input shape `(max.sent.len, vocab.size)`. -/
def trigramRow (vocab : List Trigram) (token : List Char) : List Nat :=
  vocab.map (fun t => if t ∈ string_to_trigrams token then 1 else 0)

/-- Modelled from the spec (`input_to_indices.encode_by_trigram` is not in
the source tree): each token of the question, and of each edge label, is
mapped to its multi-hot trigram vector over the vocabulary, giving one row
per token. -/
def encode_by_trigram (inst : Instance) (vocab : List Trigram) :
    List (List Nat) × List (List (List Nat)) :=
  (inst.questionTokens.map (trigramRow vocab),
   inst.edgeLabels.map (fun e => e.map (trigramRow vocab)))

/-- `self._p.get('max.sent.len', 10)` in `YihModel`. -/
def YihModel.max_sent_len (p : Params) : Nat :=
  p.maxSentLen?.getD 10

/-- `YihModel.encode_data_instance`: encode the instance by trigrams, then
pad/truncate the token axis of the question and of every edge to
`max.sent.len` with `padding='post', truncating='post'` (appended rows are
all-zero). -/
def YihModel.encode_data_instance (p : Params) (vocab : List Trigram)
    (inst : Instance) : List (List Nat) × List (List (List Nat)) :=
  let r := encode_by_trigram inst vocab
  (pad_post_rows (YihModel.max_sent_len p) vocab.length r.1,
   r.2.map (pad_post_rows (YihModel.max_sent_len p) vocab.length))

lemma pad_post_length (m : Nat) (xs : List Nat) :
    (pad_post m xs).length = m := by
  simp [pad_post]
  omega

lemma pad_post_rows_length (m w : Nat) (xs : List (List Nat)) :
    (pad_post_rows m w xs).length = m := by
  simp [pad_post_rows]
  omega

lemma pad_post_eq_take (m : Nat) (xs : List Nat) (h : m ≤ xs.length) :
    pad_post m xs = xs.take m := by
  simp [pad_post, Nat.sub_eq_zero_of_le h]

lemma pad_post_eq_append (m : Nat) (xs : List Nat) (h : xs.length ≤ m) :
    pad_post m xs = xs ++ List.replicate (m - xs.length) 0 := by
  simp [pad_post, List.take_of_length_le h]

lemma pad_post_cases (m : Nat) (xs : List Nat) :
    pad_post m xs =
      if m ≤ xs.length then xs.take m
      else xs ++ List.replicate (m - xs.length) 0 := by
  by_cases h : m ≤ xs.length
  · rw [if_pos h, pad_post_eq_take m xs h]
  · rw [if_neg h]
    exact pad_post_eq_append m xs (Nat.le_of_not_le h)

lemma pad_post_rows_cases (m w : Nat) (xs : List (List Nat)) :
    pad_post_rows m w xs =
      if m ≤ xs.length then xs.take m
      else xs ++ List.replicate (m - xs.length) (List.replicate w 0) := by
  by_cases h : m ≤ xs.length
  · rw [if_pos h]
    simp [pad_post_rows, Nat.sub_eq_zero_of_le h]
  · rw [if_neg h]
    simp [pad_post_rows, List.take_of_length_le (Nat.le_of_not_le h)]

/-- **C1.** `encode_data_instance` of `CharCNNModel` and of `YihModel`
returns arrays whose sequence dimension equals the configured maximum length
`max.sent.len` (default 70 for `CharCNNModel`, 10 for `YihModel`): input
sequences longer than the maximum are truncated to their first
`max.sent.len` elements, and shorter ones are padded with zeros appended at
the end. -/
theorem C1_encode_data_instance_fixed_length
    (p : Params) (cvocab : List (Char × Nat)) (tvocab : List Trigram)
    (inst : Instance) :
    ((CharCNNModel.encode_data_instance p cvocab inst).1.length
        = CharCNNModel.max_sent_len p)
    ∧ (∀ l ∈ (CharCNNModel.encode_data_instance p cvocab inst).2,
        l.length = CharCNNModel.max_sent_len p)
    ∧ ((CharCNNModel.encode_data_instance p cvocab inst).1 =
        (if CharCNNModel.max_sent_len p ≤ (encode_by_character inst cvocab).1.length
         then (encode_by_character inst cvocab).1.take (CharCNNModel.max_sent_len p)
         else (encode_by_character inst cvocab).1 ++
           List.replicate
             (CharCNNModel.max_sent_len p - (encode_by_character inst cvocab).1.length) 0))
    ∧ ((CharCNNModel.encode_data_instance p cvocab inst).2 =
        (encode_by_character inst cvocab).2.map (fun s =>
          if CharCNNModel.max_sent_len p ≤ s.length
          then s.take (CharCNNModel.max_sent_len p)
          else s ++ List.replicate (CharCNNModel.max_sent_len p - s.length) 0))
    ∧ ((YihModel.encode_data_instance p tvocab inst).1.length = YihModel.max_sent_len p)
    ∧ (∀ l ∈ (YihModel.encode_data_instance p tvocab inst).2,
        l.length = YihModel.max_sent_len p)
    ∧ ((YihModel.encode_data_instance p tvocab inst).1 =
        (if YihModel.max_sent_len p ≤ (encode_by_trigram inst tvocab).1.length
         then (encode_by_trigram inst tvocab).1.take (YihModel.max_sent_len p)
         else (encode_by_trigram inst tvocab).1 ++
           List.replicate
             (YihModel.max_sent_len p - (encode_by_trigram inst tvocab).1.length)
             (List.replicate tvocab.length 0)))
    ∧ CharCNNModel.max_sent_len { p with maxSentLen? := none } = 70
    ∧ YihModel.max_sent_len { p with maxSentLen? := none } = 10 := by
  refine ⟨pad_post_length _ _, ?_, ?_, ?_, pad_post_rows_length _ _ _, ?_, ?_, rfl, rfl⟩
  · intro l hl
    simp only [CharCNNModel.encode_data_instance, List.mem_map] at hl
    obtain ⟨s, _, rfl⟩ := hl
    exact pad_post_length _ _
  · exact pad_post_cases _ _
  · simp only [CharCNNModel.encode_data_instance]
    exact List.map_congr_left (fun s _ => pad_post_cases _ _)
  · intro l hl
    simp only [YihModel.encode_data_instance, List.mem_map] at hl
    obtain ⟨s, _, rfl⟩ := hl
    exact pad_post_rows_length _ _ _
  · exact pad_post_rows_cases _ _ _

/-! ### `CharCNNModel.apply_on_instance` (claim C2) -/

/-- Dot product of two embedding vectors (`np.dot` on 1-d arrays), in exact
rational arithmetic. -/
def dotQ (v w : List ℚ) : ℚ :=
  (List.zipWith (· * ·) v w).sum

/-- Model of `np.argsort`: the indices `0 .. n-1` of the value list, ordered
so that the values they select are ascending (the order among equal values
is not observable through the claims below). -/
def argsort (xs : List ℚ) : List Nat :=
  List.insertionSort (fun i j => xs.getD i 0 ≤ xs.getD j 0) (List.range xs.length)

/-- `CharCNNModel.apply_on_instance`.  The trained sibling network
(`self._sibling_model.predict_on_batch`) is an opaque function `sibling`
from encoded inputs to embedding vectors; the same function is applied to
the encoded question and to every encoded candidate edge, each candidate's
score is the dot product of the question embedding with the candidate's
embedding, and `np.argsort(predictions)[::-1]` lists the candidate indices
by descending score. -/
def CharCNNModel.apply_on_instance {α : Type} (sibling : α → List ℚ)
    (question : α) (edges : List α) : List Nat :=
  let sentence_embedding := sibling question
  let edge_embeddings := edges.map sibling
  let predictions := edge_embeddings.map (fun e => dotQ sentence_embedding e)
  (argsort predictions).reverse

/-- The score vector of an instance: one dot product per candidate edge. -/
def CharCNNModel.instance_scores {α : Type} (sibling : α → List ℚ)
    (question : α) (edges : List α) : List ℚ :=
  edges.map (fun e => dotQ (sibling question) (sibling e))

lemma apply_on_instance_eq {α : Type} (sibling : α → List ℚ)
    (question : α) (edges : List α) :
    CharCNNModel.apply_on_instance sibling question edges =
      (argsort (CharCNNModel.instance_scores sibling question edges)).reverse := by
  simp [CharCNNModel.apply_on_instance, CharCNNModel.instance_scores, List.map_map]
  rfl

lemma argsort_perm (xs : List ℚ) : (argsort xs).Perm (List.range xs.length) :=
  List.perm_insertionSort _ _

lemma argsort_sorted (xs : List ℚ) :
    (argsort xs).Pairwise (fun i j => xs.getD i 0 ≤ xs.getD j 0) := by
  haveI : IsTotal Nat (fun i j => xs.getD i 0 ≤ xs.getD j 0) :=
    ⟨fun a b => le_total _ _⟩
  haveI : IsTrans Nat (fun i j => xs.getD i 0 ≤ xs.getD j 0) :=
    ⟨fun a b c hab hbc => le_trans hab hbc⟩
  exact List.sorted_insertionSort _ _

/-- **C2.** For every instance with `n` candidate edges,
`CharCNNModel.apply_on_instance` returns a permutation of the candidate
indices `0 .. n-1`, ordered by non-increasing similarity score, where the
score of a candidate is the dot product of the sibling-network embedding of
the question with the sibling-network embedding of that candidate edge; the
first returned index has a maximal score. -/
theorem C2_apply_on_instance_ranks_by_score {α : Type} (sibling : α → List ℚ)
    (question : α) (edges : List α) :
    (CharCNNModel.apply_on_instance sibling question edges).Perm
        (List.range edges.length)
    ∧ (CharCNNModel.apply_on_instance sibling question edges).Pairwise
        (fun i j => (CharCNNModel.instance_scores sibling question edges).getD j 0
          ≤ (CharCNNModel.instance_scores sibling question edges).getD i 0)
    ∧ (∀ j < edges.length,
        (CharCNNModel.instance_scores sibling question edges).getD j 0
          ≤ (CharCNNModel.instance_scores sibling question edges).getD
              ((CharCNNModel.apply_on_instance sibling question edges).headD 0) 0) := by
  set preds := CharCNNModel.instance_scores sibling question edges with hpreds
  have hlen : preds.length = edges.length := by
    simp [hpreds, CharCNNModel.instance_scores]
  have hperm : (CharCNNModel.apply_on_instance sibling question edges).Perm
      (List.range edges.length) := by
    rw [apply_on_instance_eq, ← hlen]
    exact (List.reverse_perm _).trans (argsort_perm preds)
  have hpair : (CharCNNModel.apply_on_instance sibling question edges).Pairwise
      (fun i j => preds.getD j 0 ≤ preds.getD i 0) := by
    rw [apply_on_instance_eq]
    rw [List.pairwise_reverse]
    exact argsort_sorted preds
  refine ⟨hperm, hpair, ?_⟩
  intro j hj
  have hjmem : j ∈ CharCNNModel.apply_on_instance sibling question edges :=
    hperm.mem_iff.mpr (List.mem_range.mpr hj)
  cases hres : CharCNNModel.apply_on_instance sibling question edges with
  | nil => rw [hres] at hjmem; cases hjmem
  | cons a t =>
    rw [hres] at hjmem hpair
    rcases List.mem_cons.mp hjmem with h | h
    · subst h; simp
    · simpa using List.rel_of_pairwise_cons hpair h

/-! ### Vocabulary building, persistence and loading (claims C3, C4, C5) -/

/-- JSON values, as far as the persisted vocabulary artifacts need them.
Python has no separate character type — the repository's "characters" are
one-character strings — so a JSON string holding one character is modelled
by `Json.chr`. -/
inductive Json : Type where
  | num (n : Nat)
  | chr (c : Char)
  | arr (elems : List Json)
  | obj (fields : List (Char × Json))

/-- `json.dump(self._character2idx, out)`: the character-to-index dict is
written as a JSON object, one field per character, in insertion order. -/
def CharCNNModel.persist_vocab (v : List (Char × Nat)) : Json :=
  .obj (v.map (fun p => (p.1, .num p.2)))

/-- One field of the loaded JSON object, read back as a vocabulary entry. -/
def charFieldToEntry (p : Char × Json) : Option (Char × Nat) :=
  match p.2 with
  | .num n => some (p.1, n)
  | _ => none

/-- `json.load(f)` of the character vocabulary artifact: the dict again. -/
def CharCNNModel.load_vocab : Json → List (Char × Nat)
  | .obj fields => fields.filterMap charFieldToEntry
  | _ => []

/-- A trigram tuple as persisted by `json.dump`: a JSON list of its three
characters (JSON has no tuples). -/
def trigramToJson (t : Trigram) : Json :=
  .arr [.chr t.1, .chr t.2.1, .chr t.2.2]

/-- `tuple(t)` applied to one loaded JSON list. -/
def trigramOfJson : Json → Option Trigram
  | .arr [.chr a, .chr b, .chr c] => some (a, b, c)
  | _ => none

/-- `json.dump(self._trigram_vocabulary, out)`. -/
def YihModel.persist_vocab (v : List Trigram) : Json :=
  .arr (v.map trigramToJson)

/-- `json.load(f)` followed by `[tuple(t) for t in ...]`: each persisted
three-element list is converted back to a tuple. -/
def YihModel.load_vocab : Json → List Trigram
  | .arr l => l.filterMap trigramOfJson
  | _ => []

/-- The state of a `CharCNNModel` relevant to the vocabulary:
`self._character2idx` and the parameter dict `self._p`. -/
structure CharState where
  character2idx : List (Char × Nat)
  p : Params

/-- `CharCNNModel.prepare_model`: when `self._character2idx` is empty it is
built with `get_character_index` from the space-joined training token
sequences and dumped to the JSON artifact (the second component; `none`
when nothing is written); afterwards `self._p['vocab.size']` is set to the
vocabulary's length.  (The superclass call that builds the keras network is
modelled separately, for claim C6.) -/
def CharCNNModel.prepare_model (train_tokens : List (List (List Char)))
    (s : CharState) : CharState × Option Json :=
  if s.character2idx.isEmpty then
    let vocab := get_character_index (train_tokens.map joinTokens)
    (⟨vocab, { s.p with vocabSize := vocab.length }⟩,
     some (CharCNNModel.persist_vocab vocab))
  else
    (⟨s.character2idx, { s.p with vocabSize := s.character2idx.length }⟩, none)

/-- `CharCNNModel.load_from_file` (vocabulary part): read the vocabulary
back from the JSON artifact and set `self._p['vocab.size']` to its
length. -/
def CharCNNModel.load_from_file (artifact : Json) (s : CharState) : CharState :=
  ⟨CharCNNModel.load_vocab artifact,
   { s.p with vocabSize := (CharCNNModel.load_vocab artifact).length }⟩

/-- Model of iterating a CPython `set` into a `list`: the iteration order
of a set of tuples of strings depends on the interpreter's randomized
string hash (`PYTHONHASHSEED`), which changes between interpreter runs.
The hash is therefore a parameter: the distinct elements (first
occurrences) are listed in order of their hash value, ties staying in
insertion order. -/
def pySetToList (hash : Trigram → Nat) (xs : List Trigram) : List Trigram :=
  List.insertionSort (fun a b => hash a ≤ hash b) (dedupFirst xs)

/-- The state of a `YihModel` relevant to the vocabulary:
`self._trigram_vocabulary` and the parameter dict `self._p`. -/
structure YihState where
  trigram_vocabulary : List Trigram
  p : Params

/-- All trigrams of the training tokens, in comprehension order
(`for tokens in train_tokens for token in tokens for t in string_to_trigrams(token)`). -/
def all_trigrams (train_tokens : List (List (List Char))) : List Trigram :=
  (train_tokens.flatten.map string_to_trigrams).flatten

/-- `YihModel.prepare_model`: when `self._trigram_vocabulary` is empty it
is built as `list({t for tokens in train_tokens for token in tokens for t
in string_to_trigrams(token)})` — a set comprehension whose resulting list
order depends on the string-hash seed, here the parameter `hash` — and
dumped to the JSON artifact; afterwards `self._p['vocab.size']` is set to
the vocabulary's length. -/
def YihModel.prepare_model (hash : Trigram → Nat)
    (train_tokens : List (List (List Char))) (s : YihState) :
    YihState × Option Json :=
  if s.trigram_vocabulary.isEmpty then
    let vocab := pySetToList hash (all_trigrams train_tokens)
    (⟨vocab, { s.p with vocabSize := vocab.length }⟩,
     some (YihModel.persist_vocab vocab))
  else
    (⟨s.trigram_vocabulary,
      { s.p with vocabSize := s.trigram_vocabulary.length }⟩, none)

/-- `YihModel.load_from_file` (vocabulary part). -/
def YihModel.load_from_file (artifact : Json) (s : YihState) : YihState :=
  ⟨YihModel.load_vocab artifact,
   { s.p with vocabSize := (YihModel.load_vocab artifact).length }⟩

lemma char_load_persist (v : List (Char × Nat)) :
    CharCNNModel.load_vocab (CharCNNModel.persist_vocab v) = v := by
  induction v with
  | nil => rfl
  | cons a rest ih =>
    obtain ⟨c, n⟩ := a
    simpa [CharCNNModel.persist_vocab, CharCNNModel.load_vocab,
      List.filterMap_cons, charFieldToEntry] using ih

lemma trigramOfJson_toJson (t : Trigram) :
    trigramOfJson (trigramToJson t) = some t := rfl

lemma yih_load_persist (v : List Trigram) :
    YihModel.load_vocab (YihModel.persist_vocab v) = v := by
  induction v with
  | nil => rfl
  | cons a rest ih =>
    simpa [YihModel.persist_vocab, YihModel.load_vocab,
      List.filterMap_cons, trigramOfJson_toJson] using ih

lemma mem_dedupFirstAux {α : Type} [DecidableEq α] {seen l : List α} {x : α}
    (hx : x ∈ dedupFirstAux seen l) : x ∈ l := by
  induction l generalizing seen with
  | nil => cases hx
  | cons a rest ih =>
    rw [dedupFirstAux] at hx
    by_cases ha : a ∈ seen
    · rw [if_pos ha] at hx
      exact List.mem_cons_of_mem _ (ih hx)
    · rw [if_neg ha] at hx
      rcases List.mem_cons.mp hx with h | h
      · exact h ▸ List.mem_cons_self _ _
      · exact List.mem_cons_of_mem _ (ih h)

lemma key_mem_of_mem_assignIndices {x : Char × Nat} :
    ∀ (i : Nat) (l : List Char), x ∈ assignIndices i l → x.1 ∈ l := by
  intro i l
  induction l generalizing i with
  | nil => intro hx; cases hx
  | cons a rest ih =>
    intro hx
    rw [assignIndices] at hx
    rcases List.mem_cons.mp hx with h | h
    · rw [h]
      exact List.mem_cons_self _ _
    · exact List.mem_cons_of_mem _ (ih _ h)

lemma vocabLookup_eq_zero_of_not_mem (docs : List (List Char)) (c : Char)
    (h : c ∉ docs.flatten) :
    vocabLookup (get_character_index docs) c = 0 := by
  have hnone : (get_character_index docs).find? (fun p => p.1 == c) = none := by
    rw [List.find?_eq_none]
    intro x hx
    have hx1 : x.1 ∈ docs.flatten :=
      mem_dedupFirstAux (key_mem_of_mem_assignIndices _ _ hx)
    simp only [beq_iff_eq]
    intro hc
    exact h (hc ▸ hx1)
  simp [vocabLookup, hnone]

/-- **C3.** An input symbol that is not in the character vocabulary is
encoded as the default index 0, both in the state where the vocabulary was
freshly built by `prepare_model` and in the state where it was restored by
`load_from_file` from the persisted JSON artifact. -/
theorem C3_unknown_symbol_maps_to_default
    (train_tokens : List (List (List Char))) (p : Params) (c : Char)
    (h : c ∉ (train_tokens.map joinTokens).flatten) :
    vocabLookup
        (CharCNNModel.prepare_model train_tokens ⟨[], p⟩).1.character2idx c = 0
    ∧ vocabLookup
        (CharCNNModel.load_from_file
          ((CharCNNModel.prepare_model train_tokens ⟨[], p⟩).2.getD (.num 0))
          ⟨[], p⟩).character2idx c = 0 := by
  have hpre : (CharCNNModel.prepare_model train_tokens ⟨[], p⟩).1.character2idx
      = get_character_index (train_tokens.map joinTokens) := by
    simp [CharCNNModel.prepare_model]
  have hload : (CharCNNModel.load_from_file
        ((CharCNNModel.prepare_model train_tokens ⟨[], p⟩).2.getD (.num 0))
        ⟨[], p⟩).character2idx
      = get_character_index (train_tokens.map joinTokens) := by
    simp [CharCNNModel.prepare_model, CharCNNModel.load_from_file,
      char_load_persist]
  rw [hpre, hload]
  exact ⟨vocabLookup_eq_zero_of_not_mem _ _ h,
    vocabLookup_eq_zero_of_not_mem _ _ h⟩

/-- Witness for C3 at a concrete input: vocabulary built from the single
token `"ab"`, looking up the unknown symbol `'z'`. -/
theorem C3_unknown_symbol_maps_to_default_witness :
    vocabLookup
        (CharCNNModel.prepare_model [[['a', 'b']]] ⟨[], {}⟩).1.character2idx 'z' = 0
    ∧ vocabLookup
        (CharCNNModel.load_from_file
          ((CharCNNModel.prepare_model [[['a', 'b']]] ⟨[], {}⟩).2.getD (.num 0))
          ⟨[], {}⟩).character2idx 'z' = 0 :=
  C3_unknown_symbol_maps_to_default [[['a', 'b']]] {} 'z' (by decide)

/-- **C4.** A vocabulary built by `prepare_model` (from an empty-vocabulary
state) and persisted to its JSON artifact is restored unchanged by
`load_from_file` — for `CharCNNModel` the same character-to-index mapping,
for `YihModel` the same sequence of trigrams, each persisted JSON list
turned back into a tuple — and in both cases `vocab.size` is set to the
vocabulary's length. -/
theorem C4_vocabulary_persist_load_roundtrip (p q : Params)
    (hash : Trigram → Nat) (train_tokens : List (List (List Char))) :
    ((CharCNNModel.load_from_file
        ((CharCNNModel.prepare_model train_tokens ⟨[], p⟩).2.getD (.num 0))
        ⟨[], p⟩).character2idx
      = (CharCNNModel.prepare_model train_tokens ⟨[], p⟩).1.character2idx)
    ∧ ((CharCNNModel.prepare_model train_tokens ⟨[], p⟩).1.p.vocabSize
      = (CharCNNModel.prepare_model train_tokens ⟨[], p⟩).1.character2idx.length)
    ∧ ((CharCNNModel.load_from_file
        ((CharCNNModel.prepare_model train_tokens ⟨[], p⟩).2.getD (.num 0))
        ⟨[], p⟩).p.vocabSize
      = (CharCNNModel.load_from_file
        ((CharCNNModel.prepare_model train_tokens ⟨[], p⟩).2.getD (.num 0))
        ⟨[], p⟩).character2idx.length)
    ∧ ((YihModel.load_from_file
        ((YihModel.prepare_model hash train_tokens ⟨[], q⟩).2.getD (.num 0))
        ⟨[], q⟩).trigram_vocabulary
      = (YihModel.prepare_model hash train_tokens ⟨[], q⟩).1.trigram_vocabulary)
    ∧ ((YihModel.prepare_model hash train_tokens ⟨[], q⟩).1.p.vocabSize
      = (YihModel.prepare_model hash train_tokens ⟨[], q⟩).1.trigram_vocabulary.length)
    ∧ ((YihModel.load_from_file
        ((YihModel.prepare_model hash train_tokens ⟨[], q⟩).2.getD (.num 0))
        ⟨[], q⟩).p.vocabSize
      = (YihModel.load_from_file
        ((YihModel.prepare_model hash train_tokens ⟨[], q⟩).2.getD (.num 0))
        ⟨[], q⟩).trigram_vocabulary.length) := by
  refine ⟨?_, ?_, rfl, ?_, ?_, rfl⟩
  · simp [CharCNNModel.prepare_model, CharCNNModel.load_from_file,
      char_load_persist]
  · simp [CharCNNModel.prepare_model]
  · simp [YihModel.prepare_model, YihModel.load_from_file, yih_load_persist]
  · simp [YihModel.prepare_model]

/-- **C5, counterexample.** Two runs of `YihModel.prepare_model` on the same
training input — the single token `"abcd"` — but under two different string
hash seeds produce the trigram vocabulary in two different orders, so the
built vocabulary (an ordered list in `self._trigram_vocabulary`) is not a
function of the training input alone. -/
theorem C5_counterexample_yih_order_not_deterministic :
    (YihModel.prepare_model (fun _ => 0)
        [[['a', 'b', 'c', 'd']]] ⟨[], {}⟩).1.trigram_vocabulary
    ≠ (YihModel.prepare_model (fun t => if t.1 = 'a' then 1 else 0)
        [[['a', 'b', 'c', 'd']]] ⟨[], {}⟩).1.trigram_vocabulary := by
  decide

/-- **C5 (amended).** Vocabulary building is deterministic in content but,
for `YihModel`, not in order: `CharCNNModel`'s character-to-index assignment
is a function of the training input, and two runs of `YihModel.prepare_model`
on the same input under any two string-hash seeds produce vocabularies that
are permutations of each other (the same set of trigrams); the list order
depends on the interpreter's hash randomization. -/
theorem C5_vocabulary_content_deterministic (h1 h2 : Trigram → Nat)
    (p q : Params) (train_tokens : List (List (List Char))) :
    get_character_index (train_tokens.map joinTokens)
      = get_character_index (train_tokens.map joinTokens)
    ∧ ((YihModel.prepare_model h1 train_tokens ⟨[], p⟩).1.trigram_vocabulary).Perm
        ((YihModel.prepare_model h2 train_tokens ⟨[], q⟩).1.trigram_vocabulary) := by
  refine ⟨rfl, ?_⟩
  simp only [YihModel.prepare_model, List.isEmpty, if_true]
  exact (List.perm_insertionSort _ _).trans
    (List.perm_insertionSort _ _).symm

/-! ### The twin keras network (claim C6) -/

/-- Dot product over the reals: the default `Merge` mode `'dot'` with
`dot_axes=(1, 2)` dots the question vector with each candidate's vector. -/
def dotR (v w : List ℝ) : ℝ :=
  (List.zipWith (· * ·) v w).sum

/-- Modelled from the spec (`keras_extensions.keras_cosine` is not in the
source tree): the similarity score used "when `twin.similarity` is 'cos'" —
cosine similarity of the two embedding vectors. -/
noncomputable def keras_cosine (v w : List ℝ) : ℝ :=
  dotR v w / (Real.sqrt (dotR v v) * Real.sqrt (dotR w w))

/-- The merge mode selected by `_get_keras_model`: `keras_cosine` when
`self._p.get("twin.similarity")` is `'cos'`, otherwise the default `'dot'`.
(Any other configured string is handed verbatim to the framework's `Merge`
layer and is outside this development; the claim concerns the default and
`'cos'`.) -/
noncomputable def twin_similarity (p : Params) (v w : List ℝ) : ℝ :=
  if p.twinSimilarity? = some "cos" then keras_cosine v w else dotR v w

/-- The `softmax` activation on a score vector. -/
noncomputable def softmax (xs : List ℝ) : List ℝ :=
  xs.map (fun x => Real.exp x / (xs.map Real.exp).sum)

/-- The network built by `_get_keras_model` (of either model), as a function
of its inputs.  The shared sibling sub-network — embedding (or trigram
rows), convolution, pooling, dense layers, dropout — is the single opaque
function `sibling`; the twins model applies it once to the question input
and, via `TimeDistributed`, to each of the `graph.choices` candidate-edge
inputs, merges each pair into one similarity score (layer `edge_scores`),
and applies a `softmax` activation (layer `main_output`). -/
noncomputable def twin_model_forward {α : Type} (p : Params)
    (sibling : α → List ℝ) (question : α) (edges : List α) : List ℝ :=
  softmax (edges.map (fun e => twin_similarity p (sibling question) (sibling e)))

lemma list_sum_map_div (l : List ℝ) (c : ℝ) :
    (l.map (fun x => x / c)).sum = l.sum / c := by
  induction l with
  | nil => simp
  | cons a t ih => simp [ih, add_div]

lemma exp_sum_pos (xs : List ℝ) (h : xs ≠ []) :
    0 < (xs.map Real.exp).sum := by
  refine List.sum_pos _ (fun x hx => ?_) (by simpa using h)
  obtain ⟨a, _, rfl⟩ := List.mem_map.mp hx
  exact Real.exp_pos a

lemma softmax_length (xs : List ℝ) : (softmax xs).length = xs.length := by
  simp [softmax]

lemma softmax_sum (xs : List ℝ) (h : xs ≠ []) : (softmax xs).sum = 1 := by
  have hpos := exp_sum_pos xs h
  have hmap : xs.map (fun x => Real.exp x / (xs.map Real.exp).sum)
      = (xs.map Real.exp).map (fun y => y / (xs.map Real.exp).sum) := by
    rw [List.map_map]
    rfl
  rw [softmax, hmap, list_sum_map_div, div_self (ne_of_gt hpos)]

lemma softmax_pos (xs : List ℝ) (h : xs ≠ []) :
    ∀ y ∈ softmax xs, 0 < y := by
  intro y hy
  obtain ⟨a, _, rfl⟩ := List.mem_map.mp hy
  exact div_pos (Real.exp_pos a) (exp_sum_pos xs h)

/-- **C6.** The model of `_get_keras_model` applies one shared sibling
sub-network both to the question and to each of the `graph.choices`
candidate-edge inputs, produces one similarity score per candidate — the
dot product by default, `keras_cosine` when `twin.similarity` is `'cos'` —
and applies a softmax, so the output is a probability distribution of
length `graph.choices` over the candidates (entries positive, summing
to 1). -/
theorem C6_twin_model_probability_distribution {α : Type} (p : Params)
    (sibling : α → List ℝ) (question : α) (edges : List α)
    (hlen : edges.length = p.graphChoices) (hne : edges ≠ []) :
    (twin_model_forward p sibling question edges).length = p.graphChoices
    ∧ (twin_model_forward p sibling question edges).sum = 1
    ∧ (∀ y ∈ twin_model_forward p sibling question edges, 0 < y)
    ∧ (p.twinSimilarity? = none →
        twin_model_forward p sibling question edges
          = softmax (edges.map (fun e => dotR (sibling question) (sibling e))))
    ∧ (p.twinSimilarity? = some "cos" →
        twin_model_forward p sibling question edges
          = softmax (edges.map (fun e =>
              keras_cosine (sibling question) (sibling e)))) := by
  have hne' : edges.map (fun e => twin_similarity p (sibling question) (sibling e))
      ≠ [] := by simpa using hne
  refine ⟨?_, softmax_sum _ hne', softmax_pos _ hne', ?_, ?_⟩
  · rw [twin_model_forward, softmax_length, List.length_map, hlen]
  · intro hmode
    rw [twin_model_forward]
    congr 1
    exact List.map_congr_left (fun e _ => by
      simp [twin_similarity, hmode])
  · intro hmode
    rw [twin_model_forward]
    congr 1
    exact List.map_congr_left (fun e _ => by
      simp [twin_similarity, hmode])

/-- Witness for C6 at a concrete input: two candidate edges,
`graph.choices = 2`, the default similarity, and a one-dimensional
sibling embedding. -/
theorem C6_twin_model_probability_distribution_witness :
    ([0, 1] : List Nat).length = ({ graphChoices := 2 } : Params).graphChoices
    ∧ ([0, 1] : List Nat) ≠ []
    ∧ ((twin_model_forward { graphChoices := 2 }
          (fun n : Nat => [(n : ℝ)]) 5 [0, 1]).length
        = ({ graphChoices := 2 } : Params).graphChoices
      ∧ (twin_model_forward { graphChoices := 2 }
          (fun n : Nat => [(n : ℝ)]) 5 [0, 1]).sum = 1
      ∧ (∀ y ∈ twin_model_forward { graphChoices := 2 }
          (fun n : Nat => [(n : ℝ)]) 5 [0, 1], 0 < y)
      ∧ (({ graphChoices := 2 } : Params).twinSimilarity? = none →
          twin_model_forward { graphChoices := 2 }
              (fun n : Nat => [(n : ℝ)]) 5 [0, 1]
            = softmax ([0, 1].map (fun e : Nat =>
                dotR [((5 : Nat) : ℝ)] [(e : ℝ)])))
      ∧ (({ graphChoices := 2 } : Params).twinSimilarity? = some "cos" →
          twin_model_forward { graphChoices := 2 }
              (fun n : Nat => [(n : ℝ)]) 5 [0, 1]
            = softmax ([0, 1].map (fun e : Nat =>
                keras_cosine [((5 : Nat) : ℝ)] [(e : ℝ)])))) :=
  ⟨rfl, by decide,
    C6_twin_model_probability_distribution { graphChoices := 2 }
      (fun n : Nat => [(n : ℝ)]) 5 [0, 1] rfl (by decide)⟩

/-! ### Target encoding for training (claim C9) -/

/-- Model of `keras.utils.np_utils.to_categorical(targets, nb_classes)`: one
one-hot row of width `nb_classes` per target index.  A target at or above
`nb_classes` makes the underlying assignment raise `IndexError`, modelled by
`none`. -/
def to_categorical (targets : List Nat) (nb_classes : Nat) :
    Option (List (List Nat)) :=
  if targets.all (fun t => t < nb_classes) then
    some (targets.map (fun t =>
      (List.range nb_classes).map (fun j => if j = t then 1 else 0)))
  else none

/-- The targets as returned by `encode_data_for_training`: the raw indices
when the configured loss is not categorical cross-entropy, one-hot rows when
it is. -/
inductive EncodedTargets : Type where
  | raw (ts : List Nat)
  | oneHot (m : List (List Nat))

/-- The target handling of `CharCNNModel.encode_data_for_training` and
`YihModel.encode_data_for_training` (identical in the two methods): when
`self._p.get("loss", 'categorical_crossentropy')` is
`'categorical_crossentropy'`, the targets are one-hot encoded with width
`len(input_set[0])`, the candidate count of the batch's first instance.  An
empty batch (`input_set[0]` undefined) and a target index out of the width's
range (`IndexError`) are modelled by `none`. -/
def encode_training_targets {α : Type} (p : Params)
    (input_set : List (List α)) (targets : List Nat) :
    Option EncodedTargets :=
  match input_set with
  | [] => none
  | first :: _ =>
      if p.loss?.getD "categorical_crossentropy" = "categorical_crossentropy"
      then (to_categorical targets first.length).map .oneHot
      else some (.raw targets)

/-- **C9.** With the default loss (categorical cross-entropy),
`encode_data_for_training` one-hot encodes the targets with width
`len(input_set[0])`, the candidate count of the batch's first instance, and
the conversion is well defined precisely when every target index in the
batch is strictly below that count — batches whose later instances have
more candidates than the first, together with a target pointing into that
excess, are outside the operation's domain. -/
theorem C9_target_one_hot_width_first_instance {α : Type} (p : Params)
    (first : List α) (rest : List (List α)) (targets : List Nat)
    (hloss : p.loss? = none) :
    ((encode_training_targets p (first :: rest) targets).isSome
        ↔ ∀ t ∈ targets, t < first.length)
    ∧ ((∀ t ∈ targets, t < first.length) →
        encode_training_targets p (first :: rest) targets
          = some (.oneHot (targets.map (fun t =>
              (List.range first.length).map
                (fun j => if j = t then 1 else 0))))) := by
  constructor
  · simp [encode_training_targets, hloss, to_categorical,
      apply_ite Option.isSome]
  · intro hall
    have : targets.all (fun t => t < first.length) = true := by
      simpa [List.all_eq_true] using hall
    simp [encode_training_targets, hloss, to_categorical, this]

/-- Witness for C9 at a concrete input: a two-instance batch whose first
instance has two candidates, targets `[0, 1]`. -/
theorem C9_target_one_hot_width_first_instance_witness :
    ({} : Params).loss? = none
    ∧ (((encode_training_targets {} ([10, 11] :: [[20, 21, 22]]) [0, 1]).isSome
        ↔ ∀ t ∈ [0, 1], t < ([10, 11] : List Nat).length)
      ∧ ((∀ t ∈ [0, 1], t < ([10, 11] : List Nat).length) →
          encode_training_targets {} ([10, 11] :: [[20, 21, 22]]) [0, 1]
            = some (.oneHot (([0, 1] : List Nat).map (fun t =>
                (List.range ([10, 11] : List Nat).length).map
                  (fun j => if j = t then 1 else 0)))))) :=
  ⟨rfl, C9_target_one_hot_width_first_instance {} [10, 11] [[20, 21, 22]]
    [0, 1] rfl⟩

/-! ### The training driver `train_model.train` (claims C7, C8, C10) -/

/-- The configuration facts that steer the driver's control flow:
`hasTraining` — `"training" in config`; `hasLogResults` —
`'log.results' in config['training']`; `trainGenerator` —
`config['training'].get('train.generator', False)`; `hasTrainValidation` —
`'train_validation' in config['webquestions']['path.to.dataset']`;
`wikidataEvaluate` — `config['wikidata'].get('evaluate', False)`;
`modelIsKeras` — `isinstance(trainablemodel, KerasModel)`.  The keys the
driver reads unconditionally (`logger`, `webquestions`, `evaluation`,
`model`, `wikidata`) are assumed present, as in every shipped
configuration. -/
structure DriverConfig where
  hasTraining : Bool
  hasLogResults : Bool
  trainGenerator : Bool
  hasTrainValidation : Bool
  wikidataEvaluate : Bool
  modelIsKeras : Bool

/-- The observable steps of one driver run. -/
inductive Step : Type where
  | printNoTrainingParams
  | sysExit
  | loadDataset
  | buildModel
  | prepareModel
  | trainOnGenerator
  | trainOnBatches
  | silverEval (useValidationSplit : Bool)
  | keyErrorLogResults
  | writeSilverPredictions
  | logSilverAccuracy
  | liveKBEval
  deriving DecidableEq

/-- The sequence of steps `train_model.train` performs on a configuration,
following the source line by line: the `"training"`-key check that prints
and calls `sys.exit()`; `WebQuestions` dataset construction; model
construction; `prepare_model` for keras models; generator or batch
training according to `train.generator`; the silver evaluation, on the
validation split when `'train_validation'` is configured and otherwise on
the full training set; then the unconditional read of
`config['training']['log.results']` for the silver-predictions output
path, which raises `KeyError` and aborts the run when that key is absent;
otherwise the predictions dump, the results-logger accuracy line (the
results logger exists exactly when `log.results` is present), and the live
knowledge-base evaluation exactly when `wikidata.evaluate` is set and
`'train_validation'` is configured. -/
def train_trace (c : DriverConfig) : List Step :=
  if !c.hasTraining then [.printNoTrainingParams, .sysExit]
  else
    [.loadDataset, .buildModel]
    ++ (if c.modelIsKeras then [.prepareModel] else [])
    ++ [if c.trainGenerator then .trainOnGenerator else .trainOnBatches]
    ++ [.silverEval c.hasTrainValidation]
    ++ (if !c.hasLogResults then [.keyErrorLogResults]
        else [.writeSilverPredictions, .logSilverAccuracy]
          ++ (if c.wikidataEvaluate && c.hasTrainValidation
              then [.liveKBEval] else []))

/-- **C7.** On every configuration with a `training` section and a
`log.results` entry the driver performs, in order: dataset loading, model
construction (with vocabulary/model preparation for keras models),
training — generator-based or batch-based according to `train.generator` —
then the silver evaluation, then the optional live knowledge-base
evaluation.  The live evaluation runs if and only if `wikidata.evaluate` is
true and the dataset path configuration contains `train_validation`; the
silver evaluation uses the validation split exactly when
`train_validation` is present, and the full training set otherwise. -/
theorem C7_driver_step_order (c : DriverConfig)
    (ht : c.hasTraining = true) (hlr : c.hasLogResults = true) :
    train_trace c =
      [.loadDataset, .buildModel]
      ++ (if c.modelIsKeras then [.prepareModel] else [])
      ++ [if c.trainGenerator then .trainOnGenerator else .trainOnBatches]
      ++ [.silverEval c.hasTrainValidation]
      ++ [.writeSilverPredictions, .logSilverAccuracy]
      ++ (if c.wikidataEvaluate && c.hasTrainValidation
          then [.liveKBEval] else [])
    ∧ (Step.liveKBEval ∈ train_trace c
        ↔ (c.wikidataEvaluate = true ∧ c.hasTrainValidation = true))
    ∧ (Step.silverEval true ∈ train_trace c ↔ c.hasTrainValidation = true)
    ∧ (Step.silverEval false ∈ train_trace c
        ↔ c.hasTrainValidation = false) := by
  obtain ⟨t, lr, g, tv, ev, k⟩ := c
  simp only at ht hlr
  subst ht
  subst hlr
  cases g <;> cases tv <;> cases ev <;> cases k <;> decide

/-- Witness for C7 at a concrete configuration: training section and
`log.results` present, generator training off, `train_validation` present,
`wikidata.evaluate` on, a keras model. -/
theorem C7_driver_step_order_witness :
    (DriverConfig.mk true true false true true true).hasTraining = true
    ∧ (DriverConfig.mk true true false true true true).hasLogResults = true
    ∧ (train_trace (DriverConfig.mk true true false true true true) =
        [.loadDataset, .buildModel]
        ++ [.prepareModel]
        ++ [.trainOnBatches]
        ++ [.silverEval true]
        ++ [.writeSilverPredictions, .logSilverAccuracy]
        ++ [.liveKBEval]) :=
  ⟨rfl, rfl, by
    have h := C7_driver_step_order (DriverConfig.mk true true false true true true)
      rfl rfl
    simpa using h.1⟩

/-- **C8.** A configuration without a `"training"` key makes the driver
print a message and exit before constructing the dataset or the model and
before any training or evaluation — the whole run is the message and
`sys.exit()`; a configuration with a `"training"` key proceeds past the
check. -/
theorem C8_missing_training_section_exits (c : DriverConfig) :
    (train_trace c = [.printNoTrainingParams, .sysExit]
        ↔ c.hasTraining = false)
    ∧ (Step.loadDataset ∈ train_trace c ↔ c.hasTraining = true)
    ∧ (Step.buildModel ∈ train_trace c ↔ c.hasTraining = true)
    ∧ ((Step.trainOnBatches ∈ train_trace c
        ∨ Step.trainOnGenerator ∈ train_trace c) ↔ c.hasTraining = true)
    ∧ (Step.sysExit ∈ train_trace c ↔ c.hasTraining = false) := by
  obtain ⟨t, lr, g, tv, ev, k⟩ := c
  cases t <;> cases lr <;> cases g <;> cases tv <;> cases ev <;> cases k <;>
    decide

/-- **C10.** On every configuration whose `training` section lacks a
`log.results` entry, the driver reaches the silver evaluation and then
fails with a missing-key error when it unconditionally derives the
silver-predictions path from `config['training']['log.results']`: the run
ends at that error, the predictions are never written, and the live
knowledge-base evaluation never runs — whatever `wikidata.evaluate` and the
dataset paths say. -/
theorem C10_missing_log_results_key_error (c : DriverConfig)
    (ht : c.hasTraining = true) (hlr : c.hasLogResults = false) :
    train_trace c =
      [.loadDataset, .buildModel]
      ++ (if c.modelIsKeras then [.prepareModel] else [])
      ++ [if c.trainGenerator then .trainOnGenerator else .trainOnBatches]
      ++ [.silverEval c.hasTrainValidation]
      ++ [.keyErrorLogResults]
    ∧ (train_trace c).getLast? = some .keyErrorLogResults
    ∧ Step.silverEval c.hasTrainValidation ∈ train_trace c
    ∧ Step.writeSilverPredictions ∉ train_trace c
    ∧ Step.liveKBEval ∉ train_trace c := by
  obtain ⟨t, lr, g, tv, ev, k⟩ := c
  simp only at ht hlr
  subst ht
  subst hlr
  cases g <;> cases tv <;> cases ev <;> cases k <;> decide

/-- Witness for C10 at a concrete configuration: `training` present,
`log.results` absent, while `wikidata.evaluate` and `train_validation` are
both set — the run still ends at the key error and the live evaluation does
not happen. -/
theorem C10_missing_log_results_key_error_witness :
    (DriverConfig.mk true false false true true true).hasTraining = true
    ∧ (DriverConfig.mk true false false true true true).hasLogResults = false
    ∧ (train_trace (DriverConfig.mk true false false true true true)).getLast?
        = some .keyErrorLogResults
    ∧ Step.liveKBEval ∉ train_trace (DriverConfig.mk true false false true true true) :=
  ⟨rfl, rfl,
    (C10_missing_log_results_key_error
      (DriverConfig.mk true false false true true true) rfl rfl).2.1,
    (C10_missing_log_results_key_error
      (DriverConfig.mk true false false true true true) rfl rfl).2.2.2.2⟩

end QA
